import Mathlib

/-!
Shallow embedding of the BookVision text pipeline
(`src/BookVision/utils/ocr.py`, `summary.py`, `sentiment.py`).

External engines (PyMuPDF, OpenCV, pytesseract, the transformers
summarization pipeline, TextBlob, VADER) are modelled as oracles supplied
as arguments: a call that may raise a Python exception is an `Except`
value, a call that may return `None` is an `Option` value.  The control
flow of each Python function is translated statement by statement.
-/

set_option linter.unusedVariables false

namespace BookVision

/-- Python whitespace characters, as recognised by `str.strip()` /
`str.split()` with no arguments. -/
def isPySpace (c : Char) : Bool :=
  c = ' ' || c = '\t' || c = '\n' || c = '\r' || c = '\x0b' || c = '\x0c'

/-- `str.strip()` on a character list: drop leading and trailing whitespace. -/
def pyStripList (l : List Char) : List Char :=
  ((l.dropWhile isPySpace).reverse.dropWhile isPySpace).reverse

/-- Python `s.strip()`. -/
def pyStrip (s : String) : String :=
  ⟨pyStripList s.data⟩

/-- Helper for `str.split()` with no arguments: accumulate the current word
(in reverse) while scanning; whitespace runs terminate words and are
discarded, so no empty words are produced. -/
def pyWordsAux : List Char → List Char → List (List Char)
  | [], acc => if acc.isEmpty then [] else [acc.reverse]
  | c :: cs, acc =>
    if isPySpace c then
      if acc.isEmpty then pyWordsAux cs [] else acc.reverse :: pyWordsAux cs []
    else
      pyWordsAux cs (c :: acc)

/-- Python `text.split()` (split on whitespace runs, no empty pieces). -/
def pyWords (s : String) : List String :=
  (pyWordsAux s.data []).map fun w => ⟨w⟩

/-! ## `ocr.py`: `extract_text_from_pdf`

One page of an opened PDF, as the extractor interacts with it.  `Img` is
the type of decoded raster images (opaque to the extractor). -/

/-- Oracle view of a single PDF page.
`getText` models `doc.load_page(n)` followed by `page.get_text("text")`
(either raises or yields the embedded-text layer).
`rasterDecode` models `page.get_pixmap(dpi=300)` / `pix.tobytes("png")` /
`cv2.imdecode` (either raises, or yields `None`, or yields a decoded image).
`ocr` models grayscale + Otsu threshold + `Image.fromarray` +
`pytesseract.image_to_string(..., timeout=60)` on that decoded image
(either raises or yields the recognised text). -/
structure PdfPage (Img : Type) where
  getText : Except Unit String
  rasterDecode : Except Unit (Option Img)
  ocr : Img → Except Unit String

/-- The body of the per-page `try:` block of `extract_text_from_pdf`:
the value bound to `page_text_content`, or `.error ()` when any of the
modelled calls raises. -/
def pdfPageAttempt {Img : Type} (pg : PdfPage Img) : Except Unit String :=
  match pg.getText with
  | .error e => .error e
  | .ok t =>
    if pyStrip t = "" then
      match pg.rasterDecode with
      | .error e => .error e
      | .ok (some img) => pg.ocr img
      | .ok none => .ok "[OCR failed for this page]"
    else .ok t

/-- The text contributed by page `i` (0-based): the page's resolved text,
or the except-handler's marker `"[Error processing page {i+1}]"`. -/
def resolvePage {Img : Type} (i : Nat) (pg : PdfPage Img) : String :=
  match pdfPageAttempt pg with
  | .ok s => s
  | .error _ => "[Error processing page " ++ toString (i + 1) ++ "]"

/-- The `for page_num in range(len(doc))` loop: `acc` is `full_text`,
`i` is `page_num`; each iteration appends the resolved page text plus a
newline. -/
def pdfLoop {Img : Type} : Nat → List (PdfPage Img) → String → String
  | _, [], acc => acc
  | i, pg :: rest, acc => pdfLoop (i + 1) rest (acc ++ resolvePage i pg ++ "\n")

/-- `extract_text_from_pdf`.  The argument is `none` when `fitz.open`
raises (the outer `except` returns the document-level error string) and
`some pages` when the document opens with the given page list. -/
def extract_text_from_pdf {Img : Type} (doc? : Option (List (PdfPage Img))) : String :=
  match doc? with
  | none => "Error extracting text from PDF."
  | some pages => pyStrip (pdfLoop 0 pages "")

/-- Instrumented per-page run: the same control flow as `pdfPageAttempt`,
also counting how many times `pytesseract.image_to_string` is invoked for
the page. -/
def pageRun {Img : Type} (pg : PdfPage Img) : Except Unit String × Nat :=
  match pg.getText with
  | .error e => (.error e, 0)
  | .ok t =>
    if pyStrip t = "" then
      match pg.rasterDecode with
      | .error e => ((.error e), 0)
      | .ok (some img) => (pg.ocr img, 1)
      | .ok none => (.ok "[OCR failed for this page]", 0)
    else (.ok t, 0)

/-! ## `ocr.py`: `extract_text_from_image` -/

/-- The exception classes the image path distinguishes:
`pytesseract.TesseractError` versus any other `Exception`. -/
inductive PyExc where
  | tess : PyExc
  | other : PyExc
deriving DecidableEq

/-- Oracle view of one standalone-image OCR request.  `I` is the type of
OpenCV images, `P` the type of PIL images.
`imread` models `cv2.imread(image_path)` (`none` when unreadable).
`pilOpen` models `Image.open(image_path)` (may raise).
`preprocess` models grayscale + Otsu threshold + `Image.fromarray`
(may raise).
`image_to_string` models `pytesseract.image_to_string` with an optional
timeout in seconds (may raise either exception class). -/
structure ImageEnv (I P : Type) where
  imread : Option I
  pilOpen : Unit → Except PyExc P
  preprocess : I → Except PyExc P
  image_to_string : P → Option Nat → Except PyExc String

/-- The body of the outer `try:` block of `extract_text_from_image`:
on unreadable `cv2` input, PIL fallback OCR with no timeout; otherwise
preprocess and OCR the binarized image with `timeout=30`. -/
def imageTryBody {I P : Type} (env : ImageEnv I P) : Except PyExc String :=
  match env.imread with
  | none =>
    match env.pilOpen () with
    | .error e => .error e
    | .ok image => env.image_to_string image none
  | some img_cv =>
    match env.preprocess img_cv with
    | .error e => .error e
    | .ok pil_img => env.image_to_string pil_img (some 30)

/-- `extract_text_from_image`: the `try` body, the `TesseractError`
handler, and the general-`Exception` handler whose own `try` reloads via
PIL and retries OCR with `timeout=30`. -/
def extract_text_from_image {I P : Type} (env : ImageEnv I P) : String :=
  match imageTryBody env with
  | .ok text => text
  | .error .tess => "Error during Tesseract OCR processing."
  | .error .other =>
    match env.pilOpen () with
    | .error _ => "Error extracting text from image after multiple attempts."
    | .ok image =>
      match env.image_to_string image (some 30) with
      | .ok text => text
      | .error _ => "Error extracting text from image after multiple attempts."

/-- Instrumented `try` body: same control flow as `imageTryBody`, also
counting `pytesseract.image_to_string` invocations. -/
def imageTryBodyCounted {I P : Type} (env : ImageEnv I P) :
    Except PyExc String × Nat :=
  match env.imread with
  | none =>
    match env.pilOpen () with
    | .error e => (.error e, 0)
    | .ok image => (env.image_to_string image none, 1)
  | some img_cv =>
    match env.preprocess img_cv with
    | .error e => (.error e, 0)
    | .ok pil_img => (env.image_to_string pil_img (some 30), 1)

/-- Instrumented `extract_text_from_image`: result together with the total
number of `pytesseract.image_to_string` invocations. -/
def imageOcrRun {I P : Type} (env : ImageEnv I P) : String × Nat :=
  match imageTryBodyCounted env with
  | (.ok text, n) => (text, n)
  | (.error .tess, n) => ("Error during Tesseract OCR processing.", n)
  | (.error .other, n) =>
    match env.pilOpen () with
    | .error _ => ("Error extracting text from image after multiple attempts.", n)
    | .ok image =>
      match env.image_to_string image (some 30) with
      | .ok text => (text, n + 1)
      | .error _ => ("Error extracting text from image after multiple attempts.", n + 1)

/-! ## `summary.py`: `generate_summary` -/

def MAX_CHUNK_SIZE_TOKENS : Nat := 1024

/-- `" ".join(text.split())`: whitespace normalization. -/
def normalizeWs (s : String) : String :=
  String.intercalate " " (pyWords s)

/-- Python `range(0, n, k)` for `k > 0`: the multiples of `k` below `n`
(`⌈n / k⌉` of them). -/
def pyRange (n k : Nat) : List Nat :=
  (List.range ((n + k - 1) / k)).map (· * k)

/-- Python slice `s[i : i + len]`. -/
def strSlice (s : String) (i len : Nat) : String :=
  ⟨(s.data.drop i).take len⟩

/-- The `char_chunks` list comprehension:
`[t[i : i + 4096] for i in range(0, len(t), 4096)]`
with `4096 = MAX_CHUNK_SIZE_TOKENS * 4`. -/
def charChunks (t : String) : List String :=
  (pyRange t.length (MAX_CHUNK_SIZE_TOKENS * 4)).map
    fun i => strSlice t i (MAX_CHUNK_SIZE_TOKENS * 4)

/-- The summarization pipeline as an oracle.  Applied to a chunk it either
raises (`.error ()`), returns a well-formed result carrying a
`summary_text` field (`.ok (some s)`), or returns an unexpected/empty
result (`.ok none`, the logged-and-skipped branch). -/
def SummarizerBackend : Type := String → Except Unit (Option String)

/-- The per-chunk loop body: `some part` when something is appended to
`summary_parts` (either the chunk's `summary_text` or, on an exception,
the placeholder `"[Error summarizing part {i+1}]"`), `none` when the
unexpected-result branch appends nothing. -/
def summarizeChunk (backend : SummarizerBackend) (i : Nat) (chunk : String) :
    Option String :=
  match backend chunk with
  | .ok (some s) => some s
  | .ok none => none
  | .error _ => some ("[Error summarizing part " ++ toString (i + 1) ++ "]")

/-- The `for i, chunk in enumerate(char_chunks)` loop, building
`summary_parts` in order. -/
def summaryPartsFrom (backend : SummarizerBackend) :
    Nat → List String → List String
  | _, [] => []
  | i, c :: cs =>
    match summarizeChunk backend i c with
    | some part => part :: summaryPartsFrom backend (i + 1) cs
    | none => summaryPartsFrom backend (i + 1) cs

/-- `generate_summary`.  The first argument is `none` when the module-level
`pipeline(...)` call failed at import time (so `summarizer is None`). -/
def generate_summary (backend? : Option SummarizerBackend) (text : String) :
    String :=
  match backend? with
  | none => "Summary generation service is currently unavailable."
  | some backend =>
    if pyStrip text = "" then "No content to summarize."
    else
      let normalized_text := normalizeWs text
      let char_chunks := charChunks normalized_text
      if char_chunks.isEmpty then "Could not process text for summarization."
      else
        let summary_parts := summaryPartsFrom backend 0 char_chunks
        let final_summary := pyStrip (String.intercalate "\n" summary_parts)
        if final_summary = "" then
          "Could not generate a summary for the provided text."
        else final_summary

/-! ## `sentiment.py`: `get_sentiment`

Polarity scores are modelled as exact rationals; both scorers may raise. -/

def SENTIMENT_POSITIVE : String := "Positive"
def SENTIMENT_NEGATIVE : String := "Negative"
def SENTIMENT_NEUTRAL : String := "Neutral"

/-- The two scorers as oracles.  `blob` models
`TextBlob(text).sentiment.polarity`; `vader` is `none` when the
module-level `SentimentIntensityAnalyzer()` construction failed
(`analyzer is None`), otherwise it models
`analyzer.polarity_scores(text)['compound']`. -/
structure SentimentEnv where
  blob : String → Except Unit ℚ
  vader : Option (String → Except Unit ℚ)

/-- `get_sentiment`. -/
def get_sentiment (env : SentimentEnv) (text : String) : String :=
  if pyStrip text = "" then SENTIMENT_NEUTRAL
  else
    match env.vader with
    | none =>
      match env.blob text with
      | .ok blob_sentiment =>
        if blob_sentiment ≥ 0.05 then SENTIMENT_POSITIVE
        else if blob_sentiment ≤ -0.05 then SENTIMENT_NEGATIVE
        else SENTIMENT_NEUTRAL
      | .error _ => "Error in sentiment analysis"
    | some analyzer =>
      match env.blob text with
      | .error _ => "Error in sentiment analysis"
      | .ok blob_sentiment =>
        match analyzer text with
        | .error _ => "Error in sentiment analysis"
        | .ok vader_compound_sentiment =>
          let avg_sentiment := (blob_sentiment + vader_compound_sentiment) / 2
          if avg_sentiment ≥ 0.05 then SENTIMENT_POSITIVE
          else if avg_sentiment ≤ -0.05 then SENTIMENT_NEGATIVE
          else SENTIMENT_NEUTRAL

/-! ## Derived views used by the theorems -/

/-- The per-page resolved texts of a document in page order, the first
page carrying 0-based index `i`. -/
def pageTextsFrom {Img : Type} : Nat → List (PdfPage Img) → List String
  | _, [] => []
  | i, pg :: rest => resolvePage i pg :: pageTextsFrom (i + 1) rest

/-- A synthetic page whose embedded-text layer is exactly the error marker
for 0-based page index `n`; used to state that a raising page is
equivalent to a page that cleanly returns the marker. -/
def markerPage (Img : Type) (n : Nat) : PdfPage Img where
  getText := .ok ("[Error processing page " ++ toString (n + 1) ++ "]")
  rasterDecode := .ok none
  ocr := fun _ => .ok ""

/-- List-level view of the chunk comprehension. -/
def chunksList (l : List Char) (k : Nat) : List (List Char) :=
  (pyRange l.length k).map fun i => (l.drop i).take k

/-- Concrete fixture: a page whose embedded-text layer is `"page one"`. -/
def okPageU : PdfPage Unit where
  getText := .ok "page one"
  rasterDecode := .ok none
  ocr := fun _ => .ok ""

/-- Concrete fixture: a page whose `load_page`/`get_text` call raises. -/
def badPageU : PdfPage Unit where
  getText := .error ()
  rasterDecode := .ok none
  ocr := fun _ => .ok ""

/-- Concrete fixture: a summarization backend that raises on every chunk. -/
def failBackend : SummarizerBackend := fun _ => .error ()

/-- The classification rule the spec states for a polarity score:
Positive at ≥ 0.05, Negative at ≤ −0.05, Neutral in between. -/
def classifyScore (q : ℚ) : String :=
  if q ≥ 0.05 then SENTIMENT_POSITIVE
  else if q ≤ -0.05 then SENTIMENT_NEGATIVE
  else SENTIMENT_NEUTRAL

/-! ## Helper lemmas on the string model -/

lemma foldl_append_data (l : List String) (r : String) :
    (l.foldl (fun r s => r ++ s) r).data = r.data ++ (l.map String.data).flatten := by
  induction l generalizing r with
  | nil => simp
  | cons a l ih =>
    simp only [List.foldl_cons, ih, String.data_append, List.map_cons,
      List.flatten_cons, List.append_assoc]

lemma join_data (l : List String) :
    (String.join l).data = (l.map String.data).flatten := by
  simp [String.join, foldl_append_data]

lemma join_cons (s : String) (l : List String) :
    String.join (s :: l) = s ++ String.join l := by
  apply String.ext
  simp [join_data, String.data_append]

lemma pyStripList_eq_nil_iff (l : List Char) :
    pyStripList l = [] ↔ ∀ c ∈ l, isPySpace c = true := by
  constructor
  · intro h c hc
    by_contra hcspace
    have h1 : (l.dropWhile isPySpace).reverse.dropWhile isPySpace = [] := by
      simpa [pyStripList] using congrArg List.reverse h
    have h2 : ∀ x ∈ (l.dropWhile isPySpace).reverse, isPySpace x = true :=
      List.dropWhile_eq_nil_iff.mp h1
    have hc' : c ∈ l.dropWhile isPySpace := by
      have hsplit := List.takeWhile_append_dropWhile isPySpace l
      rcases (List.mem_append.mp (by rw [hsplit]; exact hc)) with hmem | hmem
      · exact absurd (List.mem_takeWhile_imp hmem) hcspace
      · exact hmem
    exact hcspace (h2 c (List.mem_reverse.mpr hc'))
  · intro h
    have : l.dropWhile isPySpace = [] := List.dropWhile_eq_nil_iff.mpr h
    simp [pyStripList, this]

lemma pyStrip_eq_empty_iff (s : String) :
    pyStrip s = "" ↔ ∀ c ∈ s.data, isPySpace c = true := by
  rw [← pyStripList_eq_nil_iff]
  constructor
  · intro h; exact congrArg String.data h
  · intro h; exact String.ext h

lemma intercalate_go_data (s : String) (tl : List String) (acc : String) :
    (String.intercalate.go acc s tl).data =
      acc.data ++ (tl.map fun a => s.data ++ a.data).flatten := by
  induction tl generalizing acc with
  | nil => simp [String.intercalate.go]
  | cons a tl ih =>
    show (String.intercalate.go (acc ++ s ++ a) s tl).data = _
    simp [ih, String.data_append, List.append_assoc]

lemma intercalate_cons_data (s a : String) (tl : List String) :
    (String.intercalate s (a :: tl)).data =
      a.data ++ (tl.map fun b => s.data ++ b.data).flatten := by
  show (String.intercalate.go a s tl).data = _
  simp [intercalate_go_data]

/-! ## Lemmas on the PDF extractor -/

lemma pdfLoop_append {Img : Type} (l₁ l₂ : List (PdfPage Img)) (i : Nat)
    (acc : String) :
    pdfLoop i (l₁ ++ l₂) acc = pdfLoop (i + l₁.length) l₂ (pdfLoop i l₁ acc) := by
  induction l₁ generalizing i acc with
  | nil => simp [pdfLoop]
  | cons pg rest ih =>
    show pdfLoop (i + 1) (rest ++ l₂) (acc ++ resolvePage i pg ++ "\n") = _
    rw [ih]
    have harith : i + 1 + rest.length = i + (pg :: rest).length := by
      simp [List.length_cons]; omega
    rw [harith]
    rfl

lemma pdfLoop_eq_join {Img : Type} (l : List (PdfPage Img)) (i : Nat)
    (acc : String) :
    pdfLoop i l acc = acc ++ String.join ((pageTextsFrom i l).map (· ++ "\n")) := by
  induction l generalizing i acc with
  | nil => simp [pdfLoop, pageTextsFrom, String.join]
  | cons pg rest ih =>
    show pdfLoop (i + 1) rest (acc ++ resolvePage i pg ++ "\n") = _
    rw [ih]
    simp [pageTextsFrom, join_cons, String.append_assoc]

lemma resolvePage_of_error {Img : Type} (i : Nat) (pg : PdfPage Img)
    (h : pdfPageAttempt pg = .error ()) :
    resolvePage i pg = "[Error processing page " ++ toString (i + 1) ++ "]" := by
  simp [resolvePage, h]

lemma marker_pyStrip_ne_empty (n : Nat) :
    pyStrip ("[Error processing page " ++ toString n ++ "]") ≠ "" := by
  intro h
  have hall := (pyStrip_eq_empty_iff _).mp h
  have h0 : '[' ∈ "[Error processing page ".data := by decide
  have hmem : '[' ∈ ("[Error processing page " ++ toString n ++ "]").data := by
    simp only [String.data_append, List.mem_append]
    exact Or.inl (Or.inl h0)
  have := hall '[' hmem
  simp [isPySpace] at this

lemma resolvePage_markerPage {Img : Type} (i : Nat) :
    resolvePage i (markerPage Img i) =
      "[Error processing page " ++ toString (i + 1) ++ "]" := by
  simp [resolvePage, pdfPageAttempt, markerPage, marker_pyStrip_ne_empty (i + 1)]

lemma pageTextsFrom_getElem? {Img : Type} (pages : List (PdfPage Img)) :
    ∀ j i, (pageTextsFrom j pages)[i]? =
      pages[i]?.map (fun pg => resolvePage (j + i) pg) := by
  induction pages with
  | nil => intro j i; simp [pageTextsFrom]
  | cons pg rest ih =>
    intro j i
    cases i with
    | zero => simp [pageTextsFrom]
    | succ i =>
      have h := ih (j + 1) i
      have harith : j + 1 + i = j + (i + 1) := by omega
      simp only [pageTextsFrom, List.getElem?_cons_succ, h, harith]

lemma summaryPartsFrom_append (backend : SummarizerBackend)
    (l₁ l₂ : List String) : ∀ i,
    summaryPartsFrom backend i (l₁ ++ l₂) =
      summaryPartsFrom backend i l₁ ++ summaryPartsFrom backend (i + l₁.length) l₂ := by
  induction l₁ with
  | nil => intro i; simp [summaryPartsFrom]
  | cons c rest ih =>
    intro i
    have harith : i + 1 + rest.length = i + (c :: rest).length := by
      simp [List.length_cons]; omega
    simp only [List.cons_append, summaryPartsFrom]
    cases summarizeChunk backend i c with
    | none => simp only [List.append_eq, ih (i + 1), harith]
    | some part => simp only [List.append_eq, ih (i + 1), harith, List.cons_append]

/-- C1: an exception raised while processing a single PDF page is caught
and replaced by the marker `"[Error processing page {n}]"`, and the rest
of the document is processed exactly as if that page had cleanly produced
the marker text: no page-level exception escapes `extract_text_from_pdf`
or aborts the remaining pages. -/
theorem pdf_page_error_isolated {Img : Type} (pre post : List (PdfPage Img))
    (pg : PdfPage Img) (h : pdfPageAttempt pg = .error ()) :
    resolvePage pre.length pg =
      "[Error processing page " ++ toString (pre.length + 1) ++ "]" ∧
    extract_text_from_pdf (some (pre ++ pg :: post)) =
      extract_text_from_pdf (some (pre ++ markerPage Img pre.length :: post)) := by
  refine ⟨resolvePage_of_error _ _ h, ?_⟩
  simp only [extract_text_from_pdf]
  rw [pdfLoop_append, pdfLoop_append]
  simp only [pdfLoop, Nat.zero_add]
  rw [resolvePage_of_error _ _ h, resolvePage_markerPage]

/-- Witness for C1 at a concrete two-page document whose second page
raises. -/
theorem pdf_page_error_isolated_witness :
    pdfPageAttempt badPageU = .error () ∧
    (resolvePage [okPageU].length badPageU =
        "[Error processing page " ++ toString ([okPageU].length + 1) ++ "]" ∧
      extract_text_from_pdf (some ([okPageU] ++ badPageU :: [])) =
        extract_text_from_pdf
          (some ([okPageU] ++ markerPage Unit [okPageU].length :: []))) :=
  ⟨rfl, pdf_page_error_isolated [okPageU] [] badPageU rfl⟩

/-- C2: `extract_text_from_pdf` returns the per-page resolved texts in
page order, each followed by a newline, with the final result stripped of
leading/trailing whitespace; a zero-page document yields `""`; an
unopenable document yields the top-level error string. -/
theorem extract_pdf_output_shape {Img : Type} :
    @extract_text_from_pdf Img none = "Error extracting text from PDF." ∧
    extract_text_from_pdf (some ([] : List (PdfPage Img))) = "" ∧
    ∀ pages : List (PdfPage Img),
      extract_text_from_pdf (some pages) =
        pyStrip (String.join ((pageTextsFrom 0 pages).map (· ++ "\n"))) := by
  refine ⟨rfl, rfl, fun pages => ?_⟩
  simp only [extract_text_from_pdf]
  rw [pdfLoop_eq_join]
  rfl

/-- C10: failure placeholders are numbered from 1: the PDF page at
0-based index `i` that raises contributes `"[Error processing page i+1]"`
at position `i` of the per-page texts, and the chunk at 0-based index
`pre.length` whose summarization call raises contributes
`"[Error summarizing part pre.length+1]"` at that point of
`summary_parts`. -/
theorem error_placeholders_numbered_from_one :
    (∀ {Img : Type} (pages : List (PdfPage Img)) (i : Nat) (pg : PdfPage Img),
      pages[i]? = some pg → pdfPageAttempt pg = .error () →
      (pageTextsFrom 0 pages)[i]? =
        some ("[Error processing page " ++ toString (i + 1) ++ "]")) ∧
    (∀ (backend : SummarizerBackend) (pre post : List String) (c : String),
      backend c = .error () →
      summaryPartsFrom backend 0 (pre ++ c :: post) =
        summaryPartsFrom backend 0 pre ++
          ("[Error summarizing part " ++ toString (pre.length + 1) ++ "]") ::
            summaryPartsFrom backend (pre.length + 1) post) := by
  constructor
  · intro Img pages i pg hget herr
    rw [pageTextsFrom_getElem? pages 0 i, hget]
    simp [resolvePage_of_error _ _ herr]
  · intro backend pre post c hc
    rw [summaryPartsFrom_append backend pre (c :: post) 0]
    simp only [summaryPartsFrom, summarizeChunk, hc, Nat.zero_add]

/-- Witness for C10 at a concrete failing page (index 1) and a concrete
failing chunk (index 1). -/
theorem error_placeholders_numbered_from_one_witness :
    (([okPageU, badPageU])[1]? = some badPageU ∧
      (pageTextsFrom 0 [okPageU, badPageU])[1]? =
        some ("[Error processing page " ++ toString (1 + 1) ++ "]")) ∧
    (failBackend "b" = .error () ∧
      summaryPartsFrom failBackend 0 (["a"] ++ "b" :: []) =
        summaryPartsFrom failBackend 0 ["a"] ++
          ("[Error summarizing part " ++ toString ((["a"] : List String).length + 1) ++ "]") ::
            summaryPartsFrom failBackend ((["a"] : List String).length + 1) []) := by
  refine ⟨⟨rfl, ?_⟩, ⟨rfl, ?_⟩⟩
  · exact error_placeholders_numbered_from_one.1 [okPageU, badPageU] 1 badPageU rfl rfl
  · exact error_placeholders_numbered_from_one.2 failBackend ["a"] [] "b" rfl

/-! ## Sentiment and summarizer-availability theorems -/

/-- C7: for non-blank text, `get_sentiment` averages the two polarity
scores and classifies the average with the 0.05 / −0.05 thresholds; with
the VADER analyzer unavailable it classifies the TextBlob score alone
with the same thresholds; and any scorer exception yields the fixed error
sentinel. -/
theorem get_sentiment_classification (env : SentimentEnv) (text : String)
    (hne : pyStrip text ≠ "") :
    (∀ (analyzer : String → Except Unit ℚ) (b c : ℚ),
      env.vader = some analyzer → env.blob text = .ok b → analyzer text = .ok c →
      get_sentiment env text = classifyScore ((b + c) / 2)) ∧
    (env.vader = none → ∀ b : ℚ, env.blob text = .ok b →
      get_sentiment env text = classifyScore b) ∧
    (env.blob text = .error () →
      get_sentiment env text = "Error in sentiment analysis") ∧
    (∀ analyzer : String → Except Unit ℚ,
      env.vader = some analyzer → analyzer text = .error () →
      get_sentiment env text = "Error in sentiment analysis") := by
  refine ⟨?_, ?_, ?_, ?_⟩
  · intro analyzer b c hv hb hc
    simp [get_sentiment, hne, hv, hb, hc, classifyScore]
  · intro hv b hb
    simp [get_sentiment, hne, hv, hb, classifyScore]
  · intro hb
    cases hv : env.vader with
    | none => simp [get_sentiment, hne, hv, hb]
    | some analyzer => simp [get_sentiment, hne, hv, hb]
  · intro analyzer hv hc
    cases hb : env.blob text with
    | error e => simp [get_sentiment, hne, hv, hb]
    | ok b => simp [get_sentiment, hne, hv, hb, hc]

/-- Witness for C7: two scores of 1/2 average to 1/2 ≥ 0.05, classified
Positive. -/
theorem get_sentiment_classification_witness :
    pyStrip "good" ≠ "" ∧
    get_sentiment ⟨fun _ => .ok (1/2), some fun _ => .ok (1/2)⟩ "good" =
      classifyScore ((1/2 + 1/2) / 2) ∧
    classifyScore ((1/2 + 1/2) / 2) = SENTIMENT_POSITIVE := by
  have hne : pyStrip "good" ≠ "" := by decide
  refine ⟨hne, ?_, ?_⟩
  · exact (get_sentiment_classification
      ⟨fun _ => .ok (1/2), some fun _ => .ok (1/2)⟩ "good" hne).1
      (fun _ => .ok (1/2)) (1/2) (1/2) rfl rfl rfl
  · unfold classifyScore
    rw [if_pos (by norm_num : ((1 : ℚ)/2 + 1/2) / 2 ≥ 0.05)]

/-- C8: blank input (empty or whitespace-only) yields Neutral immediately,
for every oracle environment — in particular for environments whose
scorers would raise, so neither scorer is consulted. -/
theorem get_sentiment_blank_neutral (env : SentimentEnv) (text : String)
    (h : pyStrip text = "") :
    get_sentiment env text = SENTIMENT_NEUTRAL := by
  simp [get_sentiment, h]

/-- Witness for C8: whitespace-only text with both scorers raising and
VADER uninitialized still yields Neutral. -/
theorem get_sentiment_blank_neutral_witness :
    pyStrip " \t\n" = "" ∧
    get_sentiment ⟨fun _ => .error (), none⟩ " \t\n" = SENTIMENT_NEUTRAL :=
  ⟨by decide, get_sentiment_blank_neutral ⟨fun _ => .error (), none⟩ " \t\n" (by decide)⟩

/-- C9: with the summarization backend unavailable, `generate_summary`
returns the unavailability sentinel for every input — including blank
input, where the unavailability check takes precedence over the
`"No content to summarize."` sentinel. -/
theorem generate_summary_backend_unavailable :
    (∀ text : String, generate_summary none text =
      "Summary generation service is currently unavailable.") ∧
    generate_summary none "" =
      "Summary generation service is currently unavailable." ∧
    "Summary generation service is currently unavailable." ≠
      "No content to summarize." := by
  exact ⟨fun _ => rfl, rfl, by decide⟩

/-! ## Image-OCR fallback theorems -/

/-- C3: on the preprocessed-image path, a Tesseract error from the OCR
call returns the fixed Tesseract error string with no further fallback;
any other exception triggers exactly one retry — reload via PIL and OCR
with a 30-second timeout — whose success is returned and whose failure
yields the fixed "multiple attempts" error string.  The function is total,
so no exception escapes the component boundary. -/
theorem image_ocr_fallback_tiers {I P : Type} (env : ImageEnv I P)
    (img : I) (pre : P) (himread : env.imread = some img)
    (hpre : env.preprocess img = .ok pre) :
    (env.image_to_string pre (some 30) = .error .tess →
      extract_text_from_image env = "Error during Tesseract OCR processing.") ∧
    (env.image_to_string pre (some 30) = .error .other →
      (∀ (image : P) (t : String),
        env.pilOpen () = .ok image → env.image_to_string image (some 30) = .ok t →
        extract_text_from_image env = t) ∧
      (∀ e : PyExc, env.pilOpen () = .error e →
        extract_text_from_image env =
          "Error extracting text from image after multiple attempts.") ∧
      (∀ (image : P) (e : PyExc),
        env.pilOpen () = .ok image → env.image_to_string image (some 30) = .error e →
        extract_text_from_image env =
          "Error extracting text from image after multiple attempts.")) := by
  constructor
  · intro hocr
    simp [extract_text_from_image, imageTryBody, himread, hpre, hocr]
  · intro hocr
    refine ⟨?_, ?_, ?_⟩
    · intro image t hopen hretry
      simp [extract_text_from_image, imageTryBody, himread, hpre, hocr, hopen, hretry]
    · intro e hopen
      simp [extract_text_from_image, imageTryBody, himread, hpre, hocr, hopen]
    · intro image e hopen hretry
      simp [extract_text_from_image, imageTryBody, himread, hpre, hocr, hopen, hretry]

/-- Witness for C3: a concrete environment whose preprocessed-image OCR
call raises a Tesseract error. -/
theorem image_ocr_fallback_tiers_witness :
    (ImageEnv.mk (I := Unit) (P := Unit) (some ()) (fun _ => .ok ())
        (fun _ => .ok ()) (fun _ _ => .error .tess)).imread = some () ∧
    (ImageEnv.mk (I := Unit) (P := Unit) (some ()) (fun _ => .ok ())
        (fun _ => .ok ()) (fun _ _ => .error .tess)).preprocess () = .ok () ∧
    (ImageEnv.mk (I := Unit) (P := Unit) (some ()) (fun _ => .ok ())
        (fun _ => .ok ()) (fun _ _ => .error .tess)).image_to_string () (some 30) =
      .error .tess ∧
    extract_text_from_image
        (ImageEnv.mk (I := Unit) (P := Unit) (some ()) (fun _ => .ok ())
          (fun _ => .ok ()) (fun _ _ => .error .tess)) =
      "Error during Tesseract OCR processing." :=
  ⟨rfl, rfl, rfl,
    (image_ocr_fallback_tiers
      (ImageEnv.mk (some ()) (fun _ => .ok ()) (fun _ => .ok ())
        (fun _ _ => .error .tess)) () () rfl rfl).1 rfl⟩

/-- C4: OCR is attempted at most once per PDF page (no retry, no fallback
tier), and at most twice for a standalone image — one primary attempt and
at most one secondary fallback attempt; the instrumented runs agree with
the uninstrumented functions. -/
theorem ocr_attempt_counts :
    (∀ {I P : Type} (env : ImageEnv I P),
      (imageOcrRun env).1 = extract_text_from_image env ∧
      (imageTryBodyCounted env).1 = imageTryBody env ∧
      (imageTryBodyCounted env).2 ≤ 1 ∧
      (imageOcrRun env).2 ≤ 2) ∧
    (∀ {Img : Type} (pg : PdfPage Img),
      (pageRun pg).1 = pdfPageAttempt pg ∧ (pageRun pg).2 ≤ 1) := by
  constructor
  · intro I P env
    have hbody : (imageTryBodyCounted env).1 = imageTryBody env ∧
        (imageTryBodyCounted env).2 ≤ 1 := by
      unfold imageTryBodyCounted imageTryBody
      cases him : env.imread with
      | none =>
        cases hoo : env.pilOpen () with
        | error e => simp [hoo]
        | ok image => simp [hoo]
      | some img_cv =>
        cases hp : env.preprocess img_cv with
        | error e => simp [hp]
        | ok pil_img => simp [hp]
    refine ⟨?_, hbody.1, hbody.2, ?_⟩
    · unfold imageOcrRun extract_text_from_image
      rcases hc : imageTryBodyCounted env with ⟨r, n⟩
      have hr : imageTryBody env = r := by rw [← hbody.1, hc]
      rw [← hr]
      cases hb : imageTryBody env with
      | ok t => simp [hr ▸ hb]
      | error e =>
        cases e with
        | tess => simp [hr ▸ hb]
        | other =>
          cases hoo : env.pilOpen () with
          | error e' => simp [hr ▸ hb, hoo]
          | ok image =>
            cases hretry : env.image_to_string image (some 30) with
            | ok t => simp [hr ▸ hb, hoo, hretry]
            | error e' => simp [hr ▸ hb, hoo, hretry]
    · unfold imageOcrRun
      rcases hc : imageTryBodyCounted env with ⟨r, n⟩
      have hn : n ≤ 1 := by
        have := hbody.2; rw [hc] at this; exact this
      cases r with
      | ok t => show n ≤ 2; omega
      | error e =>
        cases e with
        | tess => show n ≤ 2; omega
        | other =>
          cases hoo : env.pilOpen () with
          | error e' => simp only [hoo]; omega
          | ok image =>
            cases hretry : env.image_to_string image (some 30) with
            | ok t => simp only [hoo, hretry]; omega
            | error e' => simp only [hoo, hretry]; omega
  · intro Img pg
    unfold pageRun pdfPageAttempt
    cases hg : pg.getText with
    | error e => simp
    | ok t =>
      by_cases hs : pyStrip t = ""
      · simp only [hs, if_pos rfl]
        cases hr : pg.rasterDecode with
        | error e => simp
        | ok o => cases o with
          | none => simp
          | some img => simp
      · simp [hs]

/-! ## Chunking lemmas -/

lemma pyRange_zero (k : Nat) (hk : 0 < k) : pyRange 0 k = [] := by
  have h0 : (k - 1) / k = 0 := Nat.div_eq_of_lt (by omega)
  simp [pyRange, h0]

lemma pyRange_cons (n k : Nat) (hn : 0 < n) (hk : 0 < k) :
    pyRange n k = 0 :: (pyRange (n - k) k).map (· + k) := by
  have hceil : (n + k - 1) / k = (n - k + k - 1) / k + 1 := by
    rcases le_or_lt k n with hkn | hkn
    · have h1 : n + k - 1 = (n - k + k - 1) + k := by omega
      rw [h1, Nat.add_div_right _ hk]
    · have h1 : n - k = 0 := by omega
      have h2 : (n + k - 1) / k = 1 := by
        apply Nat.div_eq_of_lt_le
        · omega
        · omega
      have h3 : (0 + k - 1) / k = 0 := Nat.div_eq_of_lt (by omega)
      rw [h2, h1, h3]
  rw [pyRange, hceil, List.range_succ_eq_map]
  simp only [List.map_cons, Nat.zero_mul, List.map_map, pyRange]
  congr 1
  apply List.map_congr_left
  intro j hj
  simp [Nat.succ_mul, Nat.add_comm]

lemma chunksList_nil (k : Nat) (hk : 0 < k) : chunksList [] k = [] := by
  simp [chunksList, pyRange_zero k hk]

lemma chunksList_cons (l : List Char) (k : Nat) (hk : 0 < k) (hl : l ≠ []) :
    chunksList l k = l.take k :: chunksList (l.drop k) k := by
  have hn : 0 < l.length := List.length_pos.mpr hl
  rw [chunksList, pyRange_cons l.length k hn hk]
  simp only [List.map_cons, List.drop_zero, List.map_map]
  congr 1
  rw [chunksList, List.length_drop]
  apply List.map_congr_left
  intro j hj
  simp [List.drop_drop, Nat.add_comm]

lemma chunksList_join (k : Nat) (hk : 0 < k) (l : List Char) :
    (chunksList l k).flatten = l := by
  suffices H : ∀ n (l : List Char), l.length ≤ n → (chunksList l k).flatten = l from
    H l.length l le_rfl
  intro n
  induction n with
  | zero =>
    intro l hl
    have : l = [] := List.length_eq_zero.mp (Nat.le_zero.mp hl)
    subst this
    simp [chunksList_nil k hk]
  | succ n ih =>
    intro l hl
    rcases eq_or_ne l [] with hnil | hne
    · subst hnil; simp [chunksList_nil k hk]
    · rw [chunksList_cons l k hk hne, List.flatten_cons]
      have hlen : (l.drop k).length ≤ n := by
        rw [List.length_drop]
        have : 0 < l.length := List.length_pos.mpr hne
        omega
      rw [ih (l.drop k) hlen, List.take_append_drop]

lemma chunksList_length_le (l : List Char) (k : Nat) :
    ∀ c ∈ chunksList l k, c.length ≤ k := by
  intro c hc
  rcases List.mem_map.mp hc with ⟨i, _, rfl⟩
  simp [List.length_take]

lemma chunksList_full_of_ne_last (k : Nat) (hk : 0 < k) (l : List Char) :
    ∀ i, i + 1 < (chunksList l k).length →
      ((chunksList l k)[i]?).map List.length = some k := by
  suffices H : ∀ n (l : List Char), l.length ≤ n →
      ∀ i, i + 1 < (chunksList l k).length →
        ((chunksList l k)[i]?).map List.length = some k from
    fun i => H l.length l le_rfl i
  intro n
  induction n with
  | zero =>
    intro l hl i hi
    have : l = [] := List.length_eq_zero.mp (Nat.le_zero.mp hl)
    subst this
    rw [chunksList_nil k hk] at hi
    simp at hi
  | succ n ih =>
    intro l hl i hi
    rcases eq_or_ne l [] with hnil | hne
    · subst hnil; rw [chunksList_nil k hk] at hi; simp at hi
    · rw [chunksList_cons l k hk hne] at hi ⊢
      cases i with
      | zero =>
        have hrest : chunksList (l.drop k) k ≠ [] := by
          intro h0
          rw [List.length_cons, h0] at hi
          simp at hi
        have hdrop : l.drop k ≠ [] := by
          intro h0
          rw [h0, chunksList_nil k hk] at hrest
          exact hrest rfl
        have hklt : k < l.length := by
          by_contra hle
          exact hdrop (List.drop_eq_nil_of_le (by omega))
        simp [List.length_take, Nat.min_eq_left (Nat.le_of_lt hklt)]
      | succ i =>
        rw [List.length_cons] at hi
        have hlen : (l.drop k).length ≤ n := by
          rw [List.length_drop]
          have : 0 < l.length := List.length_pos.mpr hne
          omega
        simpa using ih (l.drop k) hlen i (by omega)

lemma charChunks_eq (t : String) :
    charChunks t =
      (chunksList t.data (MAX_CHUNK_SIZE_TOKENS * 4)).map
        (fun l => (⟨l⟩ : String)) := by
  simp only [charChunks, chunksList, List.map_map]
  rfl

lemma pyWordsAux_sound : ∀ (l acc : List Char),
    (∀ c ∈ acc, isPySpace c = false) →
    ∀ w ∈ pyWordsAux l acc, w ≠ [] ∧ ∀ c ∈ w, isPySpace c = false := by
  intro l
  induction l with
  | nil =>
    intro acc hacc w hw
    by_cases hemp : acc.isEmpty
    · simp [pyWordsAux, hemp] at hw
    · rw [pyWordsAux, if_neg hemp] at hw
      have hw' : w = acc.reverse := List.mem_singleton.mp hw
      subst hw'
      constructor
      · simp only [ne_eq, List.reverse_eq_nil_iff]
        intro h0; rw [h0] at hemp; exact hemp rfl
      · intro c hc; exact hacc c (List.mem_reverse.mp hc)
  | cons a rest ih =>
    intro acc hacc w hw
    by_cases hsp : isPySpace a
    · rw [pyWordsAux, if_pos hsp] at hw
      by_cases hemp : acc.isEmpty
      · rw [if_pos hemp] at hw
        exact ih [] (by simp) w hw
      · rw [if_neg hemp] at hw
        rcases List.mem_cons.mp hw with hw | hw
        · subst hw
          constructor
          · simp only [ne_eq, List.reverse_eq_nil_iff]
            intro h0; rw [h0] at hemp; exact hemp rfl
          · intro c hc; exact hacc c (List.mem_reverse.mp hc)
        · exact ih [] (by simp) w hw
    · rw [pyWordsAux, if_neg hsp] at hw
      refine ih (a :: acc) ?_ w hw
      intro c hc
      rcases List.mem_cons.mp hc with rfl | hc
      · exact Bool.eq_false_iff.mpr hsp
      · exact hacc c hc

/-- C5: `generate_summary` normalizes whitespace (its words carry no
whitespace and are joined by single spaces) and splits the normalized
text into consecutive 4096-character chunks (`MAX_CHUNK_SIZE_TOKENS * 4`)
with no overlap: every chunk except the last has length exactly 4096,
none is longer, and concatenating all chunks in order reconstructs the
normalized input exactly. -/
theorem summary_chunking_law (text : String) :
    String.join (charChunks (normalizeWs text)) = normalizeWs text ∧
    (∀ c ∈ charChunks (normalizeWs text),
      c.length ≤ MAX_CHUNK_SIZE_TOKENS * 4) ∧
    (∀ i, i + 1 < (charChunks (normalizeWs text)).length →
      ((charChunks (normalizeWs text))[i]?).map String.length =
        some (MAX_CHUNK_SIZE_TOKENS * 4)) ∧
    (∀ w ∈ pyWords text, w ≠ "" ∧ ∀ ch ∈ w.data, isPySpace ch = false) := by
  have hk : 0 < MAX_CHUNK_SIZE_TOKENS * 4 := by norm_num [MAX_CHUNK_SIZE_TOKENS]
  refine ⟨?_, ?_, ?_, ?_⟩
  · apply String.ext
    rw [charChunks_eq, join_data, List.map_map]
    have hdata : (fun l : List Char => (⟨l⟩ : String).data) = fun l => l := rfl
    calc ((chunksList (normalizeWs text).data (MAX_CHUNK_SIZE_TOKENS * 4)).map
            (String.data ∘ fun l => (⟨l⟩ : String))).flatten
        = (chunksList (normalizeWs text).data (MAX_CHUNK_SIZE_TOKENS * 4)).flatten := by
          rw [show (String.data ∘ fun l : List Char => (⟨l⟩ : String)) = id from rfl,
            List.map_id]
      _ = (normalizeWs text).data :=
          chunksList_join (MAX_CHUNK_SIZE_TOKENS * 4) hk (normalizeWs text).data
  · intro c hc
    rw [charChunks_eq] at hc
    rcases List.mem_map.mp hc with ⟨l, hl, rfl⟩
    exact chunksList_length_le _ _ l hl
  · intro i hi
    rw [charChunks_eq] at hi ⊢
    rw [List.length_map] at hi
    rw [List.getElem?_map, Option.map_map]
    have h := chunksList_full_of_ne_last (MAX_CHUNK_SIZE_TOKENS * 4) hk
      (normalizeWs text).data i hi
    rw [show (String.length ∘ fun l : List Char => (⟨l⟩ : String)) = List.length from rfl]
    exact h
  · intro w hw
    rcases List.mem_map.mp hw with ⟨wl, hwl, rfl⟩
    have h := pyWordsAux_sound text.data [] (by simp) wl hwl
    refine ⟨?_, h.2⟩
    intro h0
    exact h.1 (congrArg String.data h0)

/-- Witness for C5 — vacuous hypotheses aside, evaluate the chunking on a
concrete string: the chunks of `"a  b   c"`'s normalization concatenate
back to `"a b c"`. -/
theorem summary_chunking_law_witness :
    String.join (charChunks (normalizeWs "a  b   c")) = normalizeWs "a  b   c" ∧
    normalizeWs "a  b   c" = "a b c" :=
  ⟨(summary_chunking_law "a  b   c").1, by decide⟩

/-! ## Summarizer failure-handling lemmas -/

lemma pyStrip_ne_empty_of_mem (s : String) (c : Char) (hc : c ∈ s.data)
    (hcs : isPySpace c = false) : pyStrip s ≠ "" := by
  intro h
  have := (pyStrip_eq_empty_iff s).mp h c hc
  rw [hcs] at this
  exact Bool.false_ne_true this

lemma pyWordsAux_ne_nil : ∀ (l acc : List Char),
    ((∃ c ∈ l, isPySpace c = false) ∨ acc ≠ []) → pyWordsAux l acc ≠ [] := by
  intro l
  induction l with
  | nil =>
    intro acc h
    rcases h with ⟨c, hc, _⟩ | hacc
    · exact absurd hc (List.not_mem_nil c)
    · have hemp : ¬acc.isEmpty = true := by
        intro h0; exact hacc (List.isEmpty_iff.mp h0)
      rw [pyWordsAux, if_neg hemp]
      simp
  | cons a rest ih =>
    intro acc h
    by_cases hsp : isPySpace a
    · rw [pyWordsAux, if_pos hsp]
      by_cases hemp : acc.isEmpty
      · rw [if_pos hemp]
        apply ih [] (Or.inl ?_)
        rcases h with ⟨c, hc, hcs⟩ | hacc
        · rcases List.mem_cons.mp hc with rfl | hc
          · rw [hsp] at hcs; exact absurd hcs (by simp)
          · exact ⟨c, hc, hcs⟩
        · exact absurd (List.isEmpty_iff.mp hemp) hacc
      · rw [if_neg hemp]; simp
    · rw [pyWordsAux, if_neg hsp]
      exact ih (a :: acc) (Or.inr (by simp))

lemma normalizeWs_ne_empty (text : String) (h : pyStrip text ≠ "") :
    normalizeWs text ≠ "" := by
  have hex : ∃ c ∈ text.data, isPySpace c = false := by
    by_contra hall
    push_neg at hall
    exact h ((pyStrip_eq_empty_iff text).mpr fun c hc => by
      have := hall c hc
      cases hb : isPySpace c with
      | false => exact absurd hb this
      | true => rfl)
  have haux : pyWordsAux text.data [] ≠ [] :=
    pyWordsAux_ne_nil text.data [] (Or.inl hex)
  rcases List.exists_cons_of_ne_nil haux with ⟨wl, wls, heq⟩
  have hwl : wl ≠ [] :=
    (pyWordsAux_sound text.data [] (by simp) wl (by rw [heq]; simp)).1
  intro h0
  have hdata : (normalizeWs text).data = [] := congrArg String.data h0
  rw [normalizeWs, pyWords, heq, List.map_cons, intercalate_cons_data] at hdata
  exact hwl (List.append_eq_nil.mp hdata).1

lemma charChunks_ne_nil (t : String) (h : t ≠ "") : charChunks t ≠ [] := by
  have hdata : t.data ≠ [] := by
    intro h0; exact h (String.ext h0)
  rw [charChunks_eq,
    chunksList_cons t.data (MAX_CHUNK_SIZE_TOKENS * 4)
      (by norm_num [MAX_CHUNK_SIZE_TOKENS]) hdata]
  simp

lemma summaryPartsFrom_all_error (backend : SummarizerBackend)
    (chunks : List String) (hall : ∀ c ∈ chunks, backend c = .error ()) :
    ∀ i, summaryPartsFrom backend i chunks =
      (List.range chunks.length).map
        (fun j => "[Error summarizing part " ++ toString (i + j + 1) ++ "]") := by
  induction chunks with
  | nil => intro i; simp [summaryPartsFrom]
  | cons c cs ih =>
    intro i
    have hc : backend c = .error () := hall c (List.mem_cons_self c cs)
    have hstep : summaryPartsFrom backend i (c :: cs) =
        ("[Error summarizing part " ++ toString (i + 1) ++ "]") ::
          summaryPartsFrom backend (i + 1) cs := by
      simp [summaryPartsFrom, summarizeChunk, hc]
    rw [hstep, ih (fun d hd => hall d (List.mem_cons_of_mem c hd)) (i + 1),
      List.length_cons, List.range_succ_eq_map, List.map_cons, List.map_map]
    congr 1
    apply List.map_congr_left
    intro j hj
    have harith : i + 1 + j + 1 = i + (j + 1) + 1 := by omega
    simp only [Function.comp_apply, Nat.succ_eq_add_one, harith]

/-- C6 counterexample: with a backend that raises on every chunk, a
one-chunk text makes every chunk fail, yet `generate_summary` returns the
joined placeholder text, not a sentinel message — the placeholder differs
from each of the three fixed sentinels. -/
theorem generate_summary_all_fail_counterexample :
    generate_summary (some failBackend) "hello" = "[Error summarizing part 1]" ∧
    "[Error summarizing part 1]" ≠ "Could not generate a summary for the provided text." ∧
    "[Error summarizing part 1]" ≠ "No content to summarize." ∧
    "[Error summarizing part 1]" ≠ "Summary generation service is currently unavailable." := by
  refine ⟨?_, by decide, by decide, by decide⟩
  rfl

/-- C6 as amended: a chunk whose summarization call raises contributes
the placeholder `"[Error summarizing part i+1]"` rather than aborting the
summary; blank input returns the `"No content to summarize."` sentinel;
when every chunk fails the returned value is the newline-join of the
numbered placeholders (non-empty, hence not a sentinel); and
`generate_summary` never returns the empty string. -/
theorem generate_summary_placeholder_isolation (backend : SummarizerBackend)
    (text : String) :
    (pyStrip text = "" →
      generate_summary (some backend) text = "No content to summarize.") ∧
    (pyStrip text ≠ "" →
      (∀ c ∈ charChunks (normalizeWs text), backend c = .error ()) →
      generate_summary (some backend) text =
        pyStrip (String.intercalate "\n"
          ((List.range (charChunks (normalizeWs text)).length).map
            fun j => "[Error summarizing part " ++ toString (j + 1) ++ "]"))) ∧
    generate_summary (some backend) text ≠ "" := by
  refine ⟨?_, ?_, ?_⟩
  · intro h
    simp [generate_summary, h]
  · intro hne hall
    have hchunks : charChunks (normalizeWs text) ≠ [] :=
      charChunks_ne_nil _ (normalizeWs_ne_empty text hne)
    have hparts : summaryPartsFrom backend 0 (charChunks (normalizeWs text)) =
        (List.range (charChunks (normalizeWs text)).length).map
          (fun j => "[Error summarizing part " ++ toString (j + 1) ++ "]") := by
      rw [summaryPartsFrom_all_error backend _ hall 0]
      apply List.map_congr_left
      intro j hj
      have : 0 + j + 1 = j + 1 := by omega
      rw [this]
    have hfinal_ne : pyStrip (String.intercalate "\n"
        ((List.range (charChunks (normalizeWs text)).length).map
          fun j => "[Error summarizing part " ++ toString (j + 1) ++ "]")) ≠ "" := by
      rcases List.exists_cons_of_ne_nil hchunks with ⟨c0, cs, heq⟩
      apply pyStrip_ne_empty_of_mem _ '['
      · rw [heq, List.length_cons, List.range_succ_eq_map, List.map_cons,
          intercalate_cons_data]
        simp only [String.data_append, List.mem_append]
        exact Or.inl (Or.inl (Or.inl (by decide)))
      · decide
    simp only [generate_summary]
    rw [if_neg hne]
    rw [if_neg (by
      intro h0
      exact hchunks (List.isEmpty_iff.mp h0))]
    rw [hparts, if_neg hfinal_ne]
  · simp only [generate_summary]
    split_ifs with h1 h2 h3
    · decide
    · decide
    · decide
    · assumption

/-- Witness for the amended C6 at blank text and at a one-chunk text
whose only summarization call raises. -/
theorem generate_summary_placeholder_isolation_witness :
    (pyStrip "" = "" ∧
      generate_summary (some failBackend) "" = "No content to summarize.") ∧
    (pyStrip "hi" ≠ "" ∧
      (∀ c ∈ charChunks (normalizeWs "hi"), failBackend c = .error ()) ∧
      generate_summary (some failBackend) "hi" =
        pyStrip (String.intercalate "\n"
          ((List.range (charChunks (normalizeWs "hi")).length).map
            fun j => "[Error summarizing part " ++ toString (j + 1) ++ "]"))) ∧
    generate_summary (some failBackend) "hi" ≠ "" := by
  refine ⟨⟨rfl, ?_⟩, ⟨by decide, fun c _ => rfl, ?_⟩, ?_⟩
  · exact (generate_summary_placeholder_isolation failBackend "").1 rfl
  · exact (generate_summary_placeholder_isolation failBackend "hi").2.1
      (by decide) (fun c _ => rfl)
  · exact (generate_summary_placeholder_isolation failBackend "hi").2.2

end BookVision
